import Mathlib

/-!
Shallow embedding of the cache/fetch/present core of the crypto dashboard
(src/app.py) and verification of the specified properties.

Modelling conventions:
* The external HTTP layer is a parameter: a movers fetch receives a function
  from the duration string to the parsed JSON body of the response
  (the value of response.json()); a snapshot fetch receives a function from
  the token id to the parsed body.  Fixed request parameters (vs_currency,
  top_coins, ordering flags) are part of that ambient response environment.
* pandas DataFrames of flat records are embedded as Lean lists of records.
  Percentage-change values are embedded as Int: the program never does
  arithmetic on them, only ordering comparisons, so any linearly ordered
  carrier is faithful.  A column that pandas would hold as NaN for a row is
  an Option field that is none.
* External calls are made observable: each fetcher returns, next to its
  result, the list of requests it issued, so that caching/memoization
  claims are statable.
* Python raise becomes Except.error.  The ValueError message of
  df_all_durations is embedded without the repr of the offending payload.
-/

namespace CryptoDash

/-- One entry of the top_gainers / top_losers lists of the movers endpoint,
as parsed from JSON.  The duration-specific percentage-change column
(usd_1h_change / usd_24h_change / usd_7d_change) is optional per entry:
entries fetched for one duration carry that duration's column and pandas
fills the others with NaN (here: none) on concat. -/
structure Entry where
  id : String
  name : String
  symbol : String
  usd_1h_change : Option Int
  usd_24h_change : Option Int
  usd_7d_change : Option Int
deriving DecidableEq

/-- One row of the concatenated movers DataFrame built by df_all_durations:
an Entry plus the two tag columns the code assigns (type and duration). -/
structure Row where
  id : String
  name : String
  symbol : String
  usd_1h_change : Option Int
  usd_24h_change : Option Int
  usd_7d_change : Option Int
  type : String
  duration : String
deriving DecidableEq

/-- Parsed JSON body of one movers response, as the code inspects it:
isinstance(data, dict) plus key membership of "top_gainers" and
"top_losers".  A present key holds a list of entries; dictResp with a none
field embeds a dict missing that key; nondict embeds any non-dict body. -/
inductive Resp where
  | dictResp (top_gainers : Option (List Entry)) (top_losers : Option (List Entry))
  | nondict
deriving DecidableEq

/-- Shape check of line 22 of app.py:
isinstance(data, dict) and "top_gainers" in data and "top_losers" in data. -/
def wellShaped : Resp → Bool
  | .dictResp (some _) (some _) => true
  | _ => false

/-- Gainer list of a well-shaped response (data["top_gainers"]). -/
def gainersOf : Resp → List Entry
  | .dictResp (some g) _ => g
  | _ => []

/-- Loser list of a well-shaped response (data["top_losers"]). -/
def losersOf : Resp → List Entry
  | .dictResp _ (some l) => l
  | _ => []

/-- Tagging of lines 24-25 / 27-28: copy the entry's columns and assign the
type and duration columns. -/
def mkRow (ty dur : String) (e : Entry) : Row :=
  ⟨e.id, e.name, e.symbol, e.usd_1h_change, e.usd_24h_change, e.usd_7d_change, ty, dur⟩

/-- Rows contributed by one duration on the success path: the tagged gainer
frame followed by the tagged loser frame (lines 23-30, append order). -/
def durBlock (resp : String → Resp) (dur : String) : List Row :=
  (gainersOf (resp dur)).map (mkRow "gainer" dur) ++ (losersOf (resp dur)).map (mkRow "loser" dur)

/-- Embedding of df_all_durations (app.py lines 15-33).  For each duration a
request is issued (recorded in the first component); a response failing the
shape check raises ValueError immediately, otherwise the tagged gainer and
loser frames are appended, and at the end all frames are concatenated.
There is no cache interaction anywhere in the function. -/
def df_all_durations (resp : String → Resp) : List String → List String × Except String (List Row)
  | [] => ([], .ok [])
  | dur :: rest =>
    if wellShaped (resp dur) then
      let (calls, r) := df_all_durations resp rest
      (dur :: calls, r.map (fun rows => durBlock resp dur ++ rows))
    else
      ([dur], .error ("Unexpected response format for " ++ dur))

/-- Embedding of get_token_data (app.py lines 37-48): a single external call
parameterized by the token id, whose parsed body is returned as a DataFrame
unchanged; no cache interaction.  The row type of the snapshot frame is
irrelevant to every claim, so the body type is a parameter. -/
def get_token_data {α : Type} (resp : String → α) (token_id : String) : List String × α :=
  ([token_id], resp token_id)

/-- One element of the /coins/list body (id, name, symbol), any of which
pandas may hold as NaN (none). -/
structure RawToken where
  id : Option String
  name : Option String
  symbol : Option String
deriving DecidableEq

/-- One row of the token index DataFrame after get_all_tokens adds the
derived search_name column. -/
structure Token where
  id : Option String
  name : Option String
  symbol : Option String
  search_name : Option String
deriving DecidableEq

/-- Uppercasing of .str.upper(), character by character (the labels at
play are ASCII). -/
def strUpper (s : String) : String := ⟨s.data.map Char.toUpper⟩

/-- Body of get_all_tokens (app.py lines 53-59), without the decorator:
build the DataFrame and add search_name = name + " (" + symbol.upper() + ")".
String concatenation and .str.upper() with a NaN operand yield NaN in
pandas, embedded by the none branch. -/
def get_all_tokens_body (data : List RawToken) : List Token :=
  data.map fun t =>
    ⟨t.id, t.name, t.symbol,
      match t.name, t.symbol with
      | some n, some s => some (n ++ " (" ++ strUpper s ++ ")")
      | _, _ => none⟩

/-- Embedding of the st.cache_data decorator applied to get_all_tokens
(app.py line 52), per the decorator's documented semantics with no ttl
argument: the memo is a process-lifetime Option, a hit returns the stored
value with no external call, a miss computes the body, stores it and makes
one external call.  The third component counts external calls of this
invocation. -/
def get_all_tokens_cached (data : List RawToken) (memo : Option (List Token)) :
    List Token × Option (List Token) × Nat :=
  match memo with
  | some v => (v, some v, 0)
  | none => (get_all_tokens_body data, some (get_all_tokens_body data), 1)

/-- Repeated invocations of the memoized get_all_tokens: one invocation per
element of the times list (the timestamp of each invocation, which the
memoization ignores since st.cache_data has no ttl here).  Returns the
outputs of all invocations, the final memo state and the total number of
external calls. -/
def tokensRun (data : List RawToken) : List Nat → Option (List Token) →
    List (List Token) × Option (List Token) × Nat
  | [], memo => ([], memo, 0)
  | _t :: ts, memo =>
    let (out, memo', c) := get_all_tokens_cached data memo
    let (outs, memo2, cs) := tokensRun data ts memo'
    (out :: outs, memo2, c + cs)

/-- Duration → column mapping of app.py line 113 composed with the column
access: the value this row has in the change column assigned to the
duration; none embeds NaN and also the lookup miss for an unknown
duration. -/
def changeVal (dur : String) (r : Row) : Option Int :=
  if dur = "1h" then r.usd_1h_change
  else if dur = "24h" then r.usd_24h_change
  else if dur = "7d" then r.usd_7d_change
  else none

/-- Filter of app.py line 108:
df[(df["duration"] == duration) & (df["type"] == coin_type)]. -/
def movers_filtered (df : List Row) (duration coin_type : String) : List Row :=
  df.filter fun r => r.duration == duration && r.type == coin_type

/-- Embedding of DataFrame.nlargest(n, col) as the code uses it on line 115:
rows whose value in the column is NaN are dropped, the rest are sorted by
that column in descending order (stable, keep=first) and the first n are
returned. -/
def nlargest (n : Nat) (dur : String) (df : List Row) : List Row :=
  ((df.filter fun r => (changeVal dur r).isSome).mergeSort
    (fun a b => (changeVal dur b).getD 0 ≤ (changeVal dur a).getD 0)).take n

/-- Guard of app.py line 114: the mapped change column is present in the
filtered frame.  Frame-level pandas schema is approximated record-wise:
the column is present when some row carries a value in it. -/
def hasChangeCol (dur : String) (df : List Row) : Bool :=
  df.any fun r => (changeVal dur r).isSome

/-- Tab-1 movers view (app.py lines 108-115): the filtered table and, when
the mapped change column exists, the top-n chart rows. -/
def moversView (df : List Row) (duration coin_type : String) (top_n : Nat) :
    List Row × Option (List Row) :=
  let fdf := movers_filtered df duration coin_type
  (fdf, if hasChangeCol duration fdf then some (nlargest top_n duration fdf) else none)

/-- Movers view embedded into an ambient state of arbitrary type: the view
code (lines 108-115) is a pure expression, so it reads and writes no part
of the state. -/
def moversViewW {σ : Type} (df : List Row) (duration coin_type : String) (top_n : Nat)
    (w : σ) : (List Row × Option (List Row)) × σ :=
  (moversView df duration coin_type top_n, w)

/-- Atom of the regular-expression fragment the search filter is modelled
over: a literal character or the '.' wildcard. -/
inductive RegexAtom where
  | lit (c : Char)
  | dot
deriving DecidableEq

/-- Matching one atom against one character under re.IGNORECASE (the
case=False flag of str.contains): literals compare lowercased. -/
def atomMatch : RegexAtom → Char → Bool
  | .lit c, d => c.toLower == d.toLower
  | .dot, _ => true

/-- Matching a whole atom list at the start of the text. -/
def matchHere : List RegexAtom → List Char → Bool
  | [], _ => true
  | _ :: _, [] => false
  | a :: ps, c :: cs => atomMatch a c && matchHere ps cs

/-- Unanchored search, as re.search does on str.contains: try every start
position. -/
def reSearch (p : List RegexAtom) : List Char → Bool
  | [] => matchHere p []
  | c :: cs => matchHere p (c :: cs) || reSearch p cs

/-- Outcome of compiling a query string against the modelled fragment:
a compiled atom list; invalid, for a pattern the re module itself rejects
(unbalanced parentheses); or unsupported, for regex constructs outside the
modelled fragment (quantifiers, classes, alternation, escapes, anchors). -/
inductive ReParse where
  | atoms (p : List RegexAtom)
  | invalid
  | unsupported
deriving DecidableEq

/-- Regex metacharacters whose semantics the fragment does not model. -/
def unsupportedChars : List Char :=
  ['*', '+', '?', '|', '[', ']', '\x7b', '\x7d', '\\', '^', '$']

/-- Scanner for the fragment: literals and '.' compile to atoms; balanced
parentheses are pure grouping around concatenation and compile away; an
unbalanced parenthesis is a re compile error (invalid); any other
metacharacter leaves the fragment (unsupported).  The depth argument counts
open groups. -/
def reScan : List Char → Nat → List RegexAtom → ReParse
  | [], 0, acc => .atoms acc.reverse
  | [], _ + 1, _ => .invalid
  | c :: cs, depth, acc =>
    if c = '(' then reScan cs (depth + 1) acc
    else if c = ')' then
      match depth with
      | 0 => .invalid
      | d + 1 => reScan cs d acc
    else if c = '.' then reScan cs depth (.dot :: acc)
    else if c ∈ unsupportedChars then .unsupported
    else reScan cs depth (.lit c :: acc)

/-- Compiling a query string, modelling re.compile on the fragment. -/
def reParse (q : String) : ReParse :=
  reScan q.toList 0 []

/-- Error message of a pattern the re module rejects. -/
def reErrorMsg : String := "re.error: missing ), unterminated subpattern"

/-- Marker for a query using regex constructs the model does not cover. -/
def unsupportedMsg : String := "pattern outside the modelled regex fragment"

/-- Embedding of the tab-2 search filter (app.py line 146):
tokens_df[tokens_df["search_name"].str.contains(query, case=False, na=False)].
str.contains compiles the query as a regular expression (regex=True is the
default) with IGNORECASE, searches it in each label, and na=False makes a
missing label count as no match instead of propagating NaN.  A query the re
module cannot compile raises, embedded as Except.error; queries outside the
modelled fragment are mapped to a distinct error marker and are excluded
from every theorem below. -/
def searchMatches (tokens : List Token) (query : String) : Except String (List Token) :=
  match reParse query with
  | .atoms p =>
    .ok (tokens.filter fun t =>
      match t.search_name with
      | none => false
      | some s => reSearch p s.toList)
  | .invalid => .error reErrorMsg
  | .unsupported => .error unsupportedMsg

/-- Search filter embedded into an ambient state of arbitrary type: line
146 is a pure expression, so it reads and writes no part of the state. -/
def searchViewW {σ : Type} (tokens : List Token) (query : String) (w : σ) :
    Except String (List Token) × σ :=
  (searchMatches tokens query, w)

/-- Case-insensitive prefix test on character lists (specification-side
notion, used to state what "contains as a case-insensitive substring"
means). -/
def prefHereCI : List Char → List Char → Bool
  | [], _ => true
  | _ :: _, [] => false
  | c :: cs, d :: ds => (c.toLower == d.toLower) && prefHereCI cs ds

/-- Case-insensitive substring test on character lists: the needle matches
literally at some position of the haystack. -/
def substrCI (needle : List Char) : List Char → Bool
  | [] => prefHereCI needle []
  | c :: cs => prefHereCI needle (c :: cs) || substrCI needle cs

/-- Case-insensitive substring containment of a query in a display label
(specification-side notion for the search claims). -/
def containsCI (query label : String) : Bool :=
  substrCI query.toList label.toList

/-- Modelled from the spec (section 4.1): one Cache Store entry, a payload
stored under a key together with its write time.  No cache layer exists in
src/app.py; this model exists solely to compare the mandated protocol with
the code. -/
structure CacheEntry where
  key : String
  time : Nat
  payload : List Row
deriving DecidableEq

/-- Modelled from the spec: get(key, max_age) returns the stored payload
only while now - stored_time < max_age. -/
def cacheGet (entries : List CacheEntry) (k : String) (now ttl : Nat) : Option (List Row) :=
  match entries.find? (fun e => e.key == k) with
  | some e => if now - e.time < ttl then some e.payload else none
  | none => none

/-- Modelled from the spec: put(key, payload) overwrites any prior entry
under the key with the current time. -/
def cachePut (entries : List CacheEntry) (k : String) (now : Nat) (v : List Row) :
    List CacheEntry :=
  ⟨k, now, v⟩ :: entries.filter (fun e => !(e.key == k))

/-- Modelled from the spec: the movers cache key, derived from the
operation name and its defining parameters (duration set and universe
size). -/
def moversKey (durations : List String) (top_coins : Nat) : String :=
  "movers:" ++ String.intercalate "," durations ++ ":" ++ toString top_coins

/-- Modelled from the spec (section 4.2, steps 1-7): the movers fetch
protocol the specification mandates — query the Cache Store with ttl 600
under the derived key, return a hit unchanged with no external call, and on
a miss fetch, normalize, store under the key and return.  Returns the
result, the cache state after the invocation and the external calls
issued. -/
def cachedMoversSpec (entries : List CacheEntry) (now : Nat) (resp : String → Resp)
    (durations : List String) (top_coins : Nat) :
    Except String (List Row) × List CacheEntry × List String :=
  match cacheGet entries (moversKey durations top_coins) now 600 with
  | some v => (.ok v, entries, [])
  | none =>
    let (calls, r) := df_all_durations resp durations
    match r with
    | .ok rows => (.ok rows, cachePut entries (moversKey durations top_coins) now rows, calls)
    | .error e => (.error e, entries, calls)

/-! Helper lemmas about the movers fetch. -/

/-- On the success path every requested duration was called, in order. -/
theorem calls_of_ok (resp : String → Resp) :
    ∀ (durs : List String) (rows : List Row),
      (df_all_durations resp durs).2 = .ok rows → (df_all_durations resp durs).1 = durs := by
  intro durs
  induction durs with
  | nil => intro rows _; rfl
  | cons d rest ih =>
    intro rows hok
    by_cases hws : wellShaped (resp d) = true
    · rcases hr : df_all_durations resp rest with ⟨calls, r⟩
      cases r with
      | ok rows' =>
        have := ih rows' (by rw [hr])
        simp [df_all_durations, hws, hr] at this ⊢
        exact this
      | error e =>
        exfalso
        simp [df_all_durations, hws, hr, Except.map] at hok
    · simp [df_all_durations, hws] at hok

/-- On the success path the result is the concatenation of the per-duration
blocks, in the order the durations were supplied. -/
theorem ok_eq_flatMap (resp : String → Resp) :
    ∀ (durs : List String) (rows : List Row),
      (df_all_durations resp durs).2 = .ok rows → rows = durs.flatMap (durBlock resp) := by
  intro durs
  induction durs with
  | nil =>
    intro rows hok
    simpa [df_all_durations] using hok.symm
  | cons d rest ih =>
    intro rows hok
    by_cases hws : wellShaped (resp d) = true
    · rcases hr : df_all_durations resp rest with ⟨calls, r⟩
      cases r with
      | ok rows' =>
        have hrec := ih rows' (by rw [hr])
        simp [df_all_durations, hws, hr, Except.map] at hok
        rw [List.flatMap_cons, ← hrec, hok]
      | error e =>
        exfalso
        simp [df_all_durations, hws, hr, Except.map] at hok
    · simp [df_all_durations, hws] at hok

/-- Every row of a per-duration block carries that duration tag. -/
theorem duration_of_mem_durBlock (resp : String → Resp) (d : String) (r : Row)
    (hr : r ∈ durBlock resp d) : r.duration = d := by
  rcases List.mem_append.1 hr with h | h <;>
    · rcases List.mem_map.1 h with ⟨e, _, he⟩
      rw [← he]
      rfl

/-- Filtering a block by its own duration keeps it whole. -/
theorem filter_durBlock_self (resp : String → Resp) (d : String) :
    (durBlock resp d).filter (fun r => r.duration == d) = durBlock resp d := by
  rw [List.filter_eq_self]
  intro r hr
  simpa [beq_iff_eq] using duration_of_mem_durBlock resp d r hr

/-- Filtering by a duration absent from the supplied list yields nothing. -/
theorem filter_flatMap_not_mem (resp : String → Resp) (d : String) :
    ∀ durs : List String, d ∉ durs →
      (durs.flatMap (durBlock resp)).filter (fun r => r.duration == d) = [] := by
  intro durs
  induction durs with
  | nil => intro _; rfl
  | cons d' rest ih =>
    intro hd
    rw [List.flatMap_cons, List.filter_append, ih (fun h => hd (List.mem_cons_of_mem _ h)),
      List.append_nil, List.filter_eq_nil_iff]
    intro r hr
    have := duration_of_mem_durBlock resp d' r hr
    simp [beq_iff_eq, this]
    intro h
    exact hd (h ▸ List.mem_cons_self _ _)

/-- With distinct durations, filtering the whole result by one of them
recovers exactly that duration's block. -/
theorem filter_flatMap_self (resp : String → Resp) (d : String) :
    ∀ durs : List String, durs.Nodup → d ∈ durs →
      (durs.flatMap (durBlock resp)).filter (fun r => r.duration == d) = durBlock resp d := by
  intro durs
  induction durs with
  | nil => intro _ h; exact absurd h (List.not_mem_nil d)
  | cons d' rest ih =>
    intro hnd hd
    rw [List.flatMap_cons, List.filter_append]
    rcases List.mem_cons.1 hd with h | h
    · subst h
      rw [filter_durBlock_self, filter_flatMap_not_mem resp d rest (List.nodup_cons.1 hnd).1,
        List.append_nil]
    · have hne : d' ≠ d := by
        intro he
        exact (List.nodup_cons.1 hnd).1 (he ▸ h)
      rw [ih (List.nodup_cons.1 hnd).2 h, List.filter_eq_nil_iff.2, List.nil_append]
      intro r hr
      have := duration_of_mem_durBlock resp d' r hr
      simp [beq_iff_eq, this]
      exact hne

/-- Filtering a block by the gainer tag recovers the tagged gainer frame. -/
theorem filter_gainer_durBlock (resp : String → Resp) (d : String) :
    ((durBlock resp d).filter fun r => r.type == "gainer")
      = (gainersOf (resp d)).map (mkRow "gainer" d) := by
  rw [durBlock, List.filter_append, List.filter_eq_self.2, List.filter_eq_nil_iff.2,
    List.append_nil]
  · intro r hr
    rcases List.mem_map.1 hr with ⟨e, _, he⟩
    simp [← he, mkRow]
  · intro r hr
    rcases List.mem_map.1 hr with ⟨e, _, he⟩
    simp [← he, mkRow]

/-- Filtering a block by the loser tag recovers the tagged loser frame. -/
theorem filter_loser_durBlock (resp : String → Resp) (d : String) :
    ((durBlock resp d).filter fun r => r.type == "loser")
      = (losersOf (resp d)).map (mkRow "loser" d) := by
  rw [durBlock, List.filter_append, List.filter_eq_nil_iff.2, List.filter_eq_self.2,
    List.nil_append]
  · intro r hr
    rcases List.mem_map.1 hr with ⟨e, _, he⟩
    simp [← he, mkRow]
  · intro r hr
    rcases List.mem_map.1 hr with ⟨e, _, he⟩
    simp [← he, mkRow]

/-- Reduction of a combined duration-and-type filter to the per-block type
filter, given distinct durations. -/
theorem filter_dur_type (resp : String → Resp) (durs : List String) (d ty : String)
    (hnd : durs.Nodup) (hd : d ∈ durs) :
    ((durs.flatMap (durBlock resp)).filter fun r => r.duration == d && r.type == ty)
      = (durBlock resp d).filter fun r => r.type == ty := by
  have h1 : ((durs.flatMap (durBlock resp)).filter fun r => r.duration == d && r.type == ty)
      = ((durs.flatMap (durBlock resp)).filter fun r => r.duration == d).filter
          fun r => r.type == ty := by
    rw [List.filter_filter]
    exact List.filter_congr fun r _ => by rw [Bool.and_comm]
  rw [h1, filter_flatMap_self resp d durs hnd hd]

/-- Any malformed duration in the request list forces the whole fetch onto
the error path. -/
theorem error_of_bad (resp : String → Resp) (d : String)
    (hbad : wellShaped (resp d) = false) :
    ∀ durs : List String, d ∈ durs →
      ∃ msg, (df_all_durations resp durs).2 = Except.error msg := by
  intro durs
  induction durs with
  | nil => intro h; exact absurd h (List.not_mem_nil d)
  | cons d' rest ih =>
    intro hd
    by_cases hws : wellShaped (resp d') = true
    · have hd' : d ∈ rest := by
        rcases List.mem_cons.1 hd with h | h
        · exact absurd (h ▸ hws) (by simp [hbad])
        · exact h
      rcases ih hd' with ⟨msg, hmsg⟩
      rcases hr : df_all_durations resp rest with ⟨calls, r⟩
      rw [hr] at hmsg
      simp only at hmsg
      refine ⟨msg, ?_⟩
      simp [df_all_durations, hws, hr, hmsg, Except.map]
    · exact ⟨"Unexpected response format for " ++ d', by simp [df_all_durations, hws]⟩

/-! Concrete fetch scenario shared by the witnesses below. -/

/-- Concrete gainer entry for the 24h duration. -/
def entA : Entry := ⟨"bitcoin", "Bitcoin", "btc", none, some 5, none⟩

/-- Concrete gainer entry for the 24h duration. -/
def entB : Entry := ⟨"solana", "Solana", "sol", none, some 9, none⟩

/-- Concrete loser entry for the 24h duration. -/
def entC : Entry := ⟨"dogecoin", "Doge", "doge", none, some (-3), none⟩

/-- Concrete gainer entry for the 7d duration. -/
def entD : Entry := ⟨"ether", "Ethereum", "eth", none, none, some 7⟩

/-- Concrete response environment: well-shaped bodies for 24h and 7d, a
non-dict body for every other duration. -/
def respW : String → Resp := fun d =>
  if d = "24h" then .dictResp (some [entA, entB]) (some [entC])
  else if d = "7d" then .dictResp (some [entD]) (some [])
  else .nondict

/-- Rows the concrete scenario normalizes to. -/
def rowsW : List Row :=
  [mkRow "gainer" "24h" entA, mkRow "gainer" "24h" entB, mkRow "loser" "24h" entC,
    mkRow "gainer" "7d" entD]

/-- C2: a movers response for any requested duration that is not a dict
containing both the gainers and the losers list makes the whole fetch raise
(ValueError, the spec's MalformedResponse), so the caller receives an error
and no partial result; the program contains no cache, so no cache write
happens on any path. -/
theorem movers_malformed_raises (resp : String → Resp) (durs : List String) (d : String)
    (hd : d ∈ durs) (hbad : wellShaped (resp d) = false) :
    ∃ msg, (df_all_durations resp durs).2 = Except.error msg :=
  error_of_bad resp d hbad durs hd

/-- Witness for movers_malformed_raises at a concrete malformed duration. -/
theorem movers_malformed_raises_witness :
    ("1h" ∈ (["24h", "1h"] : List String)) ∧ wellShaped (respW "1h") = false ∧
      ∃ msg, (df_all_durations respW ["24h", "1h"]).2 = Except.error msg :=
  ⟨by decide, by decide, movers_malformed_raises respW ["24h", "1h"] "1h" (by decide) (by decide)⟩

/-- C3: a successful movers fetch over distinct durations issues exactly
one external call per duration (in order), and for each duration d the
concatenated result holds exactly G+L rows tagged with duration d — the G
gainer entries tagged "gainer" and the L loser entries tagged "loser". -/
theorem movers_normalization_complete (resp : String → Resp) (durs : List String)
    (rows : List Row) (hnd : durs.Nodup)
    (hok : (df_all_durations resp durs).2 = Except.ok rows) :
    (df_all_durations resp durs).1 = durs ∧
    ∀ d ∈ durs,
      ((rows.filter fun r => r.duration == d).length
          = (gainersOf (resp d)).length + (losersOf (resp d)).length) ∧
      ((rows.filter fun r => r.duration == d && r.type == "gainer")
          = (gainersOf (resp d)).map (mkRow "gainer" d)) ∧
      ((rows.filter fun r => r.duration == d && r.type == "loser")
          = (losersOf (resp d)).map (mkRow "loser" d)) := by
  have hflat := ok_eq_flatMap resp durs rows hok
  refine ⟨calls_of_ok resp durs rows hok, ?_⟩
  intro d hd
  refine ⟨?_, ?_, ?_⟩
  · rw [hflat, filter_flatMap_self resp d durs hnd hd, durBlock, List.length_append,
      List.length_map, List.length_map]
  · rw [hflat, filter_dur_type resp durs d "gainer" hnd hd, filter_gainer_durBlock]
  · rw [hflat, filter_dur_type resp durs d "loser" hnd hd, filter_loser_durBlock]

/-- Witness for movers_normalization_complete on the concrete scenario. -/
theorem movers_normalization_complete_witness :
    (["24h", "7d"] : List String).Nodup ∧
    (df_all_durations respW ["24h", "7d"]).2 = Except.ok rowsW ∧
    ((df_all_durations respW ["24h", "7d"]).1 = ["24h", "7d"] ∧
      ∀ d ∈ (["24h", "7d"] : List String),
        ((rowsW.filter fun r => r.duration == d).length
            = (gainersOf (respW d)).length + (losersOf (respW d)).length) ∧
        ((rowsW.filter fun r => r.duration == d && r.type == "gainer")
            = (gainersOf (respW d)).map (mkRow "gainer" d)) ∧
        ((rowsW.filter fun r => r.duration == d && r.type == "loser")
            = (losersOf (respW d)).map (mkRow "loser" d))) :=
  ⟨by decide, by rfl,
    movers_normalization_complete respW ["24h", "7d"] rowsW (by decide) (by rfl)⟩

/-- C9: a successful movers fetch preserves order — the result is grouped
by duration in the order the durations were supplied, within each duration
the gainer rows precede the loser rows, and each tagged sub-list keeps the
order of the API response lists. -/
theorem movers_result_order (resp : String → Resp) (durs : List String) (rows : List Row)
    (hok : (df_all_durations resp durs).2 = Except.ok rows) :
    rows = durs.flatMap fun d =>
      (gainersOf (resp d)).map (mkRow "gainer" d) ++ (losersOf (resp d)).map (mkRow "loser" d) :=
  ok_eq_flatMap resp durs rows hok

/-- Witness for movers_result_order on the concrete scenario. -/
theorem movers_result_order_witness :
    (df_all_durations respW ["24h", "7d"]).2 = Except.ok rowsW ∧
    rowsW = (["24h", "7d"] : List String).flatMap fun d =>
      (gainersOf (respW d)).map (mkRow "gainer" d)
        ++ (losersOf (respW d)).map (mkRow "loser" d) :=
  ⟨by rfl, movers_result_order respW ["24h", "7d"] rowsW (by rfl)⟩

/-! Relating regex search on literal-only patterns to substring search. -/

/-- On a pattern of literals, anchored matching is the case-insensitive
prefix test. -/
theorem matchHere_map_lit : ∀ q s : List Char,
    matchHere (q.map RegexAtom.lit) s = prefHereCI q s := by
  intro q
  induction q with
  | nil => intro s; cases s <;> rfl
  | cons c cs ih =>
    intro s
    cases s with
    | nil => rfl
    | cons d ds => simp [matchHere, prefHereCI, atomMatch, ih]

/-- On a pattern of literals, unanchored regex search is the
case-insensitive substring test. -/
theorem reSearch_map_lit : ∀ s q : List Char,
    reSearch (q.map RegexAtom.lit) s = substrCI q s := by
  intro s
  induction s with
  | nil => intro q; simp [reSearch, substrCI, matchHere_map_lit]
  | cons c cs ih => intro q; simp [reSearch, substrCI, matchHere_map_lit, ih]

/-- Concrete token whose display label is "Bitcoin (BTC)". -/
def bitcoinTok : Token := ⟨some "bitcoin", some "Bitcoin", some "btc", some "Bitcoin (BTC)"⟩

/-- Concrete token whose display label is missing (NaN). -/
def nullTok : Token := ⟨some "weird", none, some "w", none⟩

/-- C5 counterexample: the search filter does regex search, not substring
search — the query "b.c" selects the token labelled "Bitcoin (BTC)" (the
'.' matches 't') although "b.c" is not a case-insensitive substring of that
label. -/
theorem search_regex_semantics_cex :
    searchMatches [bitcoinTok] "b.c" = Except.ok [bitcoinTok] ∧
    containsCI "b.c" "Bitcoin (BTC)" = false :=
  ⟨by rfl, by decide⟩

/-- C5 as amended: for a query that compiles to a literals-only pattern
(no regex metacharacter at all), the search filter returns exactly the
tokens whose display label contains the query as a case-insensitive
substring, a missing label never matching. -/
theorem search_literal_substring (tokens : List Token) (q : String)
    (hq : reParse q = ReParse.atoms (q.toList.map RegexAtom.lit)) :
    searchMatches tokens q = Except.ok (tokens.filter fun t =>
      match t.search_name with
      | none => false
      | some s => containsCI q s) := by
  rw [searchMatches, hq]
  refine congrArg Except.ok (List.filter_congr fun t _ => ?_)
  cases ht : t.search_name with
  | none => rfl
  | some s => simp [containsCI, reSearch_map_lit]

/-- Witness for search_literal_substring: the query "btc" selects the token
labelled "Bitcoin (BTC)". -/
theorem search_literal_substring_witness :
    reParse "btc" = ReParse.atoms ("btc".toList.map RegexAtom.lit) ∧
    (searchMatches [bitcoinTok] "btc" = Except.ok ([bitcoinTok].filter fun t =>
      match t.search_name with
      | none => false
      | some s => containsCI "btc" s)) ∧
    containsCI "btc" "Bitcoin (BTC)" = true :=
  ⟨by rfl, search_literal_substring [bitcoinTok] "btc" (by rfl), by decide⟩

/-- C10 counterexample: the search filter does not return a result set for
every query string — a query the re module cannot compile, such as "(",
raises instead. -/
theorem search_invalid_query_raises_cex :
    searchMatches [bitcoinTok, nullTok] "(" = Except.error reErrorMsg := by rfl

/-- C10 as amended: for every query that compiles, the filter returns a
(possibly empty) result set drawn from the index, a token with a missing
display label never matches (na=False), and no error is raised on such
entries. -/
theorem search_skips_null_labels (tokens : List Token) (q : String) (p : List RegexAtom)
    (hp : reParse q = ReParse.atoms p) :
    ∃ l, searchMatches tokens q = Except.ok l ∧
      (∀ t ∈ l, t ∈ tokens ∧ t.search_name ≠ none) ∧
      ∀ t ∈ tokens, t.search_name = none → t ∉ l := by
  refine ⟨tokens.filter fun t =>
      match t.search_name with
      | none => false
      | some s => reSearch p s.toList,
    by rw [searchMatches, hp], ?_, ?_⟩
  · intro t ht
    have hm := List.mem_filter.1 ht
    refine ⟨hm.1, ?_⟩
    cases hs : t.search_name with
    | none => rw [hs] at hm; exact absurd hm.2 (by simp)
    | some s => simp [hs]
  · intro t _ hnone hmem
    have hm := (List.mem_filter.1 hmem).2
    rw [hnone] at hm
    simp at hm

/-- Witness for search_skips_null_labels: on an index holding a labelled
and an unlabelled token, the query "btc" succeeds and skips the unlabelled
one. -/
theorem search_skips_null_labels_witness :
    reParse "btc" = ReParse.atoms [RegexAtom.lit 'b', RegexAtom.lit 't', RegexAtom.lit 'c'] ∧
    ∃ l, searchMatches [bitcoinTok, nullTok] "btc" = Except.ok l ∧
      (∀ t ∈ l, t ∈ [bitcoinTok, nullTok] ∧ t.search_name ≠ none) ∧
      ∀ t ∈ [bitcoinTok, nullTok], t.search_name = none → t ∉ l :=
  ⟨by rfl, search_skips_null_labels [bitcoinTok, nullTok] "btc" _ (by rfl)⟩

/-- C4: the movers view keeps exactly the rows whose duration and direction
both match, and the top-N selection returns min(N, matching-rows) rows,
sorted descending by the change column the duration→column mapping assigns
(1h→usd_1h_change, 24h→usd_24h_change, 7d→usd_7d_change), all of them
matching rows.  The hypothesis that every matching row carries a value in
the mapped column holds for every frame produced by df_all_durations, where
entries fetched for a duration carry that duration's column. -/
theorem movers_topn_selection (df : List Row) (dur ty : String) (n : Nat)
    (hdur : dur ∈ (["1h", "24h", "7d"] : List String))
    (hall : ∀ r ∈ movers_filtered df dur ty, (changeVal dur r).isSome = true) :
    (∀ r : Row, r ∈ movers_filtered df dur ty ↔ r ∈ df ∧ r.duration = dur ∧ r.type = ty) ∧
    (nlargest n dur (movers_filtered df dur ty)).length
        = min n (movers_filtered df dur ty).length ∧
    List.Pairwise (fun a b => (changeVal dur b).getD 0 ≤ (changeVal dur a).getD 0)
      (nlargest n dur (movers_filtered df dur ty)) ∧
    ∀ r ∈ nlargest n dur (movers_filtered df dur ty), r ∈ movers_filtered df dur ty := by
  have hfil : (movers_filtered df dur ty).filter (fun r => (changeVal dur r).isSome)
      = movers_filtered df dur ty := List.filter_eq_self.2 hall
  refine ⟨?_, ?_, ?_, ?_⟩
  · intro r
    simp [movers_filtered, List.mem_filter, and_assoc]
  · rw [nlargest, hfil, List.length_take, List.length_mergeSort]
  · have htrans : ∀ a b c : Row,
        (decide ((changeVal dur b).getD 0 ≤ (changeVal dur a).getD 0)) = true →
        (decide ((changeVal dur c).getD 0 ≤ (changeVal dur b).getD 0)) = true →
        (decide ((changeVal dur c).getD 0 ≤ (changeVal dur a).getD 0)) = true := by
      intro a b c hab hbc
      simp only [decide_eq_true_eq] at hab hbc ⊢
      exact le_trans hbc hab
    have htotal : ∀ a b : Row,
        ((decide ((changeVal dur b).getD 0 ≤ (changeVal dur a).getD 0))
          || (decide ((changeVal dur a).getD 0 ≤ (changeVal dur b).getD 0))) = true := by
      intro a b
      rcases le_total ((changeVal dur b).getD 0) ((changeVal dur a).getD 0) with h | h <;>
        simp [h]
    have hs := List.sorted_mergeSort htrans htotal
      ((movers_filtered df dur ty).filter fun r => (changeVal dur r).isSome)
    refine List.Pairwise.sublist (List.take_sublist _ _) (hs.imp ?_)
    intro a b h
    simpa using h
  · intro r hr
    have h1 : r ∈ ((movers_filtered df dur ty).filter
        fun r => (changeVal dur r).isSome).mergeSort
          (fun a b => (changeVal dur b).getD 0 ≤ (changeVal dur a).getD 0) :=
      List.take_subset _ _ hr
    have h2 := List.mem_mergeSort.1 h1
    rw [hfil] at h2
    exact h2

/-- Witness for movers_topn_selection on the concrete fetched frame. -/
theorem movers_topn_selection_witness :
    ("24h" ∈ (["1h", "24h", "7d"] : List String)) ∧
    (∀ r ∈ movers_filtered rowsW "24h" "gainer", (changeVal "24h" r).isSome = true) ∧
    ((∀ r : Row, r ∈ movers_filtered rowsW "24h" "gainer"
        ↔ r ∈ rowsW ∧ r.duration = "24h" ∧ r.type = "gainer") ∧
      (nlargest 1 "24h" (movers_filtered rowsW "24h" "gainer")).length
          = min 1 (movers_filtered rowsW "24h" "gainer").length ∧
      List.Pairwise (fun a b => (changeVal "24h" b).getD 0 ≤ (changeVal "24h" a).getD 0)
        (nlargest 1 "24h" (movers_filtered rowsW "24h" "gainer")) ∧
      ∀ r ∈ nlargest 1 "24h" (movers_filtered rowsW "24h" "gainer"),
        r ∈ movers_filtered rowsW "24h" "gainer") :=
  ⟨by decide, by decide,
    movers_topn_selection rowsW "24h" "gainer" 1 (by decide) (by decide)⟩

/-- Invocations of the memoized token index from a populated memo: every
invocation returns the memoized value, the memo is unchanged and no
external call is made. -/
theorem tokensRun_from_some (data : List RawToken) (v : List Token) :
    ∀ ts : List Nat, tokensRun data ts (some v) = (ts.map fun _ => v, some v, 0) := by
  intro ts
  induction ts with
  | nil => rfl
  | cons t ts ih => simp [tokensRun, get_all_tokens_cached, ih]

/-- C6: over any sequence of invocations of the token index operation,
starting from an empty memo and at arbitrary invocation times, the external
token-list fetch happens at most once (exactly once as soon as there is any
invocation), every invocation returns the same in-memory result, and the
memo is never invalidated by elapsed time (the invocation times do not
appear in the outcome). -/
theorem token_index_fetched_once (data : List RawToken) (times : List Nat) :
    tokensRun data times none =
      (times.map fun _ => get_all_tokens_body data,
        if times.isEmpty then none else some (get_all_tokens_body data),
        min times.length 1) := by
  cases times with
  | nil => rfl
  | cons t ts =>
    simp [tokensRun, get_all_tokens_cached, tokensRun_from_some, List.isEmpty]

/-- C7: every token of the fetched index whose raw name and symbol are
present is augmented with the display label name ++ " (" ++ SYMBOL ++ ")"
with the symbol uppercased. -/
theorem token_display_label (data : List RawToken) (t : Token) (n s : String)
    (ht : t ∈ get_all_tokens_body data) (hn : t.name = some n) (hs : t.symbol = some s) :
    t.search_name = some (n ++ " (" ++ strUpper s ++ ")") := by
  rcases List.mem_map.1 ht with ⟨raw, _, hraw⟩
  subst hraw
  simp only at hn hs
  rw [hn, hs]

/-- Witness for token_display_label on a one-token index. -/
theorem token_display_label_witness :
    bitcoinTok ∈ get_all_tokens_body [⟨some "bitcoin", some "Bitcoin", some "btc"⟩] ∧
    bitcoinTok.name = some "Bitcoin" ∧ bitcoinTok.symbol = some "btc" ∧
    bitcoinTok.search_name = some ("Bitcoin" ++ " (" ++ strUpper "btc" ++ ")") :=
  ⟨by decide, by decide, by decide,
    token_display_label [⟨some "bitcoin", some "Bitcoin", some "btc"⟩] bitcoinTok
      "Bitcoin" "btc" (by decide) (by decide) (by decide)⟩

/-- C8: both view computations are pure functions of their inputs — their
output does not depend on the ambient state of any type, and they leave
that state untouched, so two runs on the same tabular data, duration,
direction, bound and query agree. -/
theorem views_pure {σ : Type} (w1 w2 : σ) (df : List Row) (dur ty : String) (n : Nat)
    (tokens : List Token) (q : String) :
    ((moversViewW df dur ty n w1).1 = (moversViewW df dur ty n w2).1 ∧
      (moversViewW df dur ty n w1).2 = w1) ∧
    ((searchViewW tokens q w1).1 = (searchViewW tokens q w2).1 ∧
      (searchViewW tokens q w1).2 = w1) :=
  ⟨⟨rfl, rfl⟩, ⟨rfl, rfl⟩⟩

/-! Comparison of the code's fetchers with the spec's cached-fetch
protocol (claim C1). -/

/-- Concrete payload sitting in the warm cache, distinct from anything the
response environment produces. -/
def cachedRow : Row := mkRow "gainer" "24h" ⟨"cachedcoin", "Cached", "cc", none, some 1, none⟩

/-- Concrete warm cache: a fresh entry (age 0 < 600) under the movers key
for durations ["24h"] and universe size 1000. -/
def warmCache : List CacheEntry := [⟨moversKey ["24h"] 1000, 0, [cachedRow]⟩]

/-- C1 counterexample: with a warm cache the protocol the claim states
returns the cached payload and issues no external call, whereas
df_all_durations — which takes no cache state at all — issues one external
call for the duration and returns the freshly normalized rows, which differ
from the cached payload.  The code therefore does not implement the claimed
cache discipline. -/
theorem movers_ignores_warm_cache_cex :
    (cachedMoversSpec warmCache 0 respW ["24h"] 1000).1 = Except.ok [cachedRow] ∧
    (cachedMoversSpec warmCache 0 respW ["24h"] 1000).2.2 = [] ∧
    (df_all_durations respW ["24h"]).1 = ["24h"] ∧
    (df_all_durations respW ["24h"]).2 = Except.ok
      [mkRow "gainer" "24h" entA, mkRow "gainer" "24h" entB, mkRow "loser" "24h" entC] ∧
    ([mkRow "gainer" "24h" entA, mkRow "gainer" "24h" entB, mkRow "loser" "24h" entC]
      : List Row) ≠ [cachedRow] :=
  ⟨by rfl, by rfl, by rfl, by rfl, by decide⟩

/-- C1 as amended: the fetchers of this variant use no cache — every
successful movers invocation issues exactly one external call per requested
duration, and every snapshot invocation issues exactly one external call
and returns the parsed body unchanged; no cache is read or written. -/
theorem fetchers_make_no_cache_use (resp : String → Resp) (durs : List String)
    (rows : List Row) {α : Type} (resp' : String → α) (tid : String)
    (hok : (df_all_durations resp durs).2 = Except.ok rows) :
    (df_all_durations resp durs).1 = durs ∧
    get_token_data resp' tid = ([tid], resp' tid) :=
  ⟨calls_of_ok resp durs rows hok, rfl⟩

/-- Witness for fetchers_make_no_cache_use on the concrete scenario. -/
theorem fetchers_make_no_cache_use_witness :
    (df_all_durations respW ["24h", "7d"]).2 = Except.ok rowsW ∧
    ((df_all_durations respW ["24h", "7d"]).1 = ["24h", "7d"] ∧
      get_token_data (fun _ => (0 : Nat)) "bitcoin" = (["bitcoin"], 0)) :=
  ⟨by rfl, fetchers_make_no_cache_use respW ["24h", "7d"] rowsW (fun _ => (0 : Nat))
    "bitcoin" (by rfl)⟩

end CryptoDash
